import Mathlib

/-!
Verification of `park/envs/load_balance/reward_calculators.py` (lehduong/park).

The reward-policy subsystem is embedded shallowly: the environment snapshot
(`LoadBalanceEnv`) is a plain structure, real-valued quantities are rationals,
and each `get_reward` method becomes a pure function returning `Option ℚ`
(`none` models a Python runtime failure such as an `IndexError` or an
`AttributeError` on a missing job).

The environment itself (`LoadBalanceEnv.observe` in particular) is not part of
the source under verification; it is modelled from the specification where a
reward policy reads it.
-/

namespace Park.LoadBalance

/-- A job: `size` is the work quantity, `finish_time` the simulation time at
which its processing completes (meaningful once it is in service). -/
structure Job where
  size : ℚ
  finish_time : ℚ
deriving DecidableEq, Repr

/-- A server: processing rate, the job currently in service (if any), and the
queue of jobs awaiting service. -/
structure Server where
  service_rate : ℚ
  curr_job : Option Job
  queue : List Job
deriving DecidableEq, Repr

/-- The simulation wall clock. -/
structure WallTime where
  curr_time : ℚ
deriving DecidableEq, Repr

/-- Snapshot of the load-balance environment as read by the reward policies:
servers, wall clock, the job currently awaiting assignment (if any), the
record of finished jobs, and the count of stream arrivals yet to come. -/
structure LoadBalanceEnv where
  servers : List Server
  wall_time : WallTime
  incoming_job : Option Job
  finished_jobs : List Job
  num_stream_jobs_left : ℕ
deriving DecidableEq, Repr

/-- Modelled from the spec: the waiting-time estimate for one server — the
remaining processing time of the currently-in-service job (zero if none, or if
its `finish_time` is already in the past relative to `curr_time`) plus the sum
over the queue of `size / service_rate` for each queued job (spec §4.1). -/
def serverWait (t : ℚ) (s : Server) : ℚ :=
  (match s.curr_job with
    | none => 0
    | some j => max 0 (j.finish_time - t)) +
  (s.queue.map (fun j => j.size / s.service_rate)).sum

/-- Modelled from the spec: the environment's `observe()` state projection,
which is not under the verified source. It lists the waiting-time estimate of
every server followed by the incoming job's size (the reward code reads
`state[:-1]` as per-server load and `state[-1]` as the incoming job size);
the size slot is 0 when no job is incoming. -/
def observe (env : LoadBalanceEnv) : List ℚ :=
  env.servers.map (serverWait env.wall_time.curr_time) ++
    [(env.incoming_job.map Job.size).getD 0]

/-- `WaitingTimeReward.get_reward`: negate the observed waiting time of the
chosen server (`-1.0 * self.env.observe()[action]`). `none` models the
`IndexError` on an out-of-range action. -/
def waitingTime_get_reward (env : LoadBalanceEnv) (action : ℕ) : Option ℚ :=
  ((observe env)[action]?).map (fun w => -1 * w)

/-- `CompletionTimeReward.get_reward`: the un-negated waiting time plus the
incoming job's service time on the chosen server, negated.  `none` models the
failure of the inherited waiting-time call, the attribute access on a missing
`incoming_job`, or an out-of-range server index. -/
def completionTime_get_reward (env : LoadBalanceEnv) (action : ℕ) : Option ℚ :=
  (waitingTime_get_reward env action).bind fun r =>
    env.incoming_job.bind fun job =>
      (env.servers[action]?).map fun srv =>
        -1 * (-r + job.size / srv.service_rate)

/-- Python's `max` over a list: an error (`none`) on the empty list, otherwise
the greatest element. -/
def pyMax : List ℚ → Option ℚ
  | [] => none
  | x :: xs => some (xs.foldl max x)

/-- `MakespanReward.get_reward`: `0` while stream arrivals remain; on the last
arrival (`num_stream_jobs_left == 0`) it projects the completion time of all
jobs — per-server observed load plus queued sizes, plus the incoming job's
duration on the chosen server — and returns `-1.0 * (max load + curr_time)`. -/
def makespan_get_reward (env : LoadBalanceEnv) (action : ℕ) : Option ℚ :=
  if env.num_stream_jobs_left = 0 then
    let state := observe env
    let server_load := state.dropLast
    let job_size := state.getLast?.getD 0
    let queue_load := env.servers.map (fun s => (s.queue.map Job.size).sum)
    let combined := (server_load.zip queue_load).map (fun p => p.1 + p.2)
    (env.servers[action]?).bind fun srv =>
      let job_duration := job_size / srv.service_rate
      (combined[action]?).bind fun la =>
        let adjusted := combined.set action (la + job_duration)
        (pyMax adjusted).map fun m => -1 * (m + env.wall_time.curr_time)
  else
    some 0

/-- Total completed work: `reduce(add, [job.size for job in finished_jobs], 0)`. -/
def totalFinishedWork (env : LoadBalanceEnv) : ℚ :=
  (env.finished_jobs.map Job.size).foldl (· + ·) 0

/-- `NormalizedMakespanReward.get_reward`: delegate to the makespan reward;
when it is non-zero return `-1.0 * norm / reward` with `norm` the total
finished work, otherwise pass the zero through unchanged. -/
def normalizedMakespan_get_reward (env : LoadBalanceEnv) (action : ℕ) : Option ℚ :=
  (makespan_get_reward env action).map fun reward =>
    if reward ≠ 0 then -1 * totalFinishedWork env / reward else reward

/-- The module-level list of valid objective names. -/
def OBJECTIVE_NAMES : List String := ["makespan", "waitingTime", "completionTime"]

/-- The concrete policy bound by the `RewardCalculator` facade. The plain
makespan policy has no constructor here because no objective name selects it. -/
inductive BoundPolicy where
  | normalizedMakespan
  | waitingTime
  | completionTime
deriving DecidableEq, Repr

/-- `RewardCalculator.__init__`: reject names outside `OBJECTIVE_NAMES` with a
`ValueError` whose message lists the valid set; otherwise run the `elif`
chain.  The inner `Option` models the `reward_calculator` attribute, which
would stay unset if no branch of the chain matched. -/
def RewardCalculator_init (objective : String) : Except String (Option BoundPolicy) :=
  if ¬ (objective ∈ OBJECTIVE_NAMES) then
    Except.error ("Expect objective name to be one of " ++ toString OBJECTIVE_NAMES ++
      "but got: " ++ objective)
  else
    Except.ok
      (if objective = "makespan" then some BoundPolicy.normalizedMakespan
       else if objective = "waitingTime" then some BoundPolicy.waitingTime
       else if objective = "completionTime" then some BoundPolicy.completionTime
       else none)

/-- `RewardCalculator.get_reward`: pure forwarding to the bound policy. -/
def RewardCalculator_get_reward (p : BoundPolicy) (env : LoadBalanceEnv)
    (act : ℕ) : Option ℚ :=
  match p with
  | BoundPolicy.normalizedMakespan => normalizedMakespan_get_reward env act
  | BoundPolicy.waitingTime => waitingTime_get_reward env act
  | BoundPolicy.completionTime => completionTime_get_reward env act

/-- One facade call together with the facade state it leaves behind: the
method bodies assign no attribute, so the state is returned unchanged. -/
def RewardCalculator_step (p : BoundPolicy) (env : LoadBalanceEnv)
    (act : ℕ) : Option ℚ × BoundPolicy :=
  (RewardCalculator_get_reward p env act, p)

/-- A server is idle at time `t` when it has no job in service or that job's
finish time is not in the future. -/
def serverIdle (t : ℚ) (s : Server) : Bool :=
  match s.curr_job with
  | none => true
  | some j => decide (j.finish_time ≤ t)

/-- The per-server load as the terminal makespan branch combines it: the
observed waiting-time estimate plus the raw sizes of the queued jobs. -/
def totalLoad (t : ℚ) (s : Server) : ℚ :=
  serverWait t s + (s.queue.map Job.size).sum

/-- The per-server loads after the incoming job `j` is added to server `a`,
exactly as the terminal makespan branch builds them. -/
def loadsAfter (env : LoadBalanceEnv) (a : ℕ) (j : Job) : List ℚ :=
  let base := env.servers.map (totalLoad env.wall_time.curr_time)
  match env.servers[a]? with
  | some srv => base.set a (totalLoad env.wall_time.curr_time srv + j.size / srv.service_rate)
  | none => base

/-- Modelled from the spec: the job arrival stream is exhausted when the
environment's count of remaining stream arrivals is zero; the spec also makes
this the moment `incoming_job` becomes unset after the current assignment
(spec §3). -/
def streamExhausted (env : LoadBalanceEnv) : Prop :=
  env.num_stream_jobs_left = 0

instance (env : LoadBalanceEnv) : Decidable (streamExhausted env) := by
  unfold streamExhausted
  infer_instance

/-! ### Helper lemmas -/

lemma serverWait_nonneg (t : ℚ) (s : Server) (hr : 0 ≤ s.service_rate)
    (hq : ∀ j ∈ s.queue, 0 ≤ j.size) : 0 ≤ serverWait t s := by
  unfold serverWait
  have h1 : 0 ≤ (match s.curr_job with
      | none => (0 : ℚ)
      | some j => max 0 (j.finish_time - t)) := by
    cases s.curr_job with
    | none => exact le_refl 0
    | some j => exact le_max_left _ _
  have h2 : 0 ≤ (s.queue.map (fun j => j.size / s.service_rate)).sum := by
    apply List.sum_nonneg
    intro x hx
    simp only [List.mem_map] at hx
    obtain ⟨j, hj, rfl⟩ := hx
    exact div_nonneg (hq j hj) hr
  linarith

lemma queueSum_pos (s : Server) (hr : 0 < s.service_rate)
    (hq : ∀ j ∈ s.queue, 0 < j.size) (hne : s.queue ≠ []) :
    0 < (s.queue.map (fun j => j.size / s.service_rate)).sum := by
  cases hcase : s.queue with
  | nil => exact absurd hcase hne
  | cons j rest =>
    have hj : j ∈ s.queue := by rw [hcase]; exact List.mem_cons_self _ _
    have hrest : 0 ≤ (rest.map (fun j => j.size / s.service_rate)).sum := by
      apply List.sum_nonneg
      intro x hx
      simp only [List.mem_map] at hx
      obtain ⟨q, hqr, rfl⟩ := hx
      have : q ∈ s.queue := by rw [hcase]; exact List.mem_cons_of_mem _ hqr
      exact div_nonneg (hq q this).le hr.le
    have hhead : 0 < j.size / s.service_rate := div_pos (hq j hj) hr
    rw [List.map_cons, List.sum_cons]
    linarith

lemma serverWait_eq_zero_iff (t : ℚ) (s : Server) (hr : 0 < s.service_rate)
    (hq : ∀ j ∈ s.queue, 0 < j.size) :
    serverWait t s = 0 ↔ (serverIdle t s = true ∧ s.queue = []) := by
  have h1 : 0 ≤ (match s.curr_job with
      | none => (0 : ℚ)
      | some j => max 0 (j.finish_time - t)) := by
    cases s.curr_job with
    | none => exact le_refl 0
    | some j => exact le_max_left _ _
  have h2 : 0 ≤ (s.queue.map (fun j => j.size / s.service_rate)).sum := by
    apply List.sum_nonneg
    intro x hx
    simp only [List.mem_map] at hx
    obtain ⟨j, hj, rfl⟩ := hx
    exact div_nonneg (hq j hj).le hr.le
  unfold serverWait
  rw [add_eq_zero_iff_of_nonneg h1 h2]
  have hA : (match s.curr_job with
      | none => (0 : ℚ)
      | some j => max 0 (j.finish_time - t)) = 0 ↔ serverIdle t s = true := by
    unfold serverIdle
    cases s.curr_job with
    | none => simp
    | some j =>
      simp only [decide_eq_true_iff]
      rw [max_eq_left_iff, sub_nonpos]
  have hB : (s.queue.map (fun j => j.size / s.service_rate)).sum = 0 ↔ s.queue = [] := by
    constructor
    · intro hsum
      by_contra hne
      exact absurd hsum (ne_of_gt (queueSum_pos s hr hq hne))
    · intro hnil
      rw [hnil]
      rfl
  rw [hA, hB]

lemma totalLoad_nonneg (t : ℚ) (s : Server) (hr : 0 ≤ s.service_rate)
    (hq : ∀ j ∈ s.queue, 0 ≤ j.size) : 0 ≤ totalLoad t s := by
  unfold totalLoad
  have h1 := serverWait_nonneg t s hr hq
  have h2 : 0 ≤ (s.queue.map Job.size).sum := by
    apply List.sum_nonneg
    intro x hx
    simp only [List.mem_map] at hx
    obtain ⟨j, hj, rfl⟩ := hx
    exact hq j hj
  linarith

lemma le_foldl_max (l : List ℚ) : ∀ acc : ℚ, acc ≤ l.foldl max acc := by
  induction l with
  | nil => intro acc; exact le_refl _
  | cons x xs ih =>
    intro acc
    exact le_trans (le_max_left acc x) (ih (max acc x))

lemma mem_le_foldl_max (l : List ℚ) : ∀ (acc x : ℚ), x ∈ l → x ≤ l.foldl max acc := by
  induction l with
  | nil => intro acc x hx; cases hx
  | cons y ys ih =>
    intro acc x hx
    rcases List.mem_cons.mp hx with rfl | hmem
    · exact le_trans (le_max_right acc x) (le_foldl_max ys (max acc x))
    · exact ih (max acc y) x hmem

lemma pyMax_isSome {l : List ℚ} (h : l ≠ []) : ∃ m, pyMax l = some m := by
  cases l with
  | nil => exact absurd rfl h
  | cons x xs => exact ⟨xs.foldl max x, rfl⟩

lemma le_pyMax {l : List ℚ} {m x : ℚ} (hm : pyMax l = some m) (hx : x ∈ l) : x ≤ m := by
  cases l with
  | nil => cases hx
  | cons y ys =>
    simp only [pyMax, Option.some.injEq] at hm
    subst hm
    rcases List.mem_cons.mp hx with rfl | hmem
    · exact le_foldl_max ys x
    · exact mem_le_foldl_max ys y x hmem

lemma observe_getElem (env : LoadBalanceEnv) (a : ℕ) (h : a < env.servers.length) :
    (observe env)[a]? = some (serverWait env.wall_time.curr_time env.servers[a]) := by
  unfold observe
  rw [List.getElem?_append]
  rw [if_pos (by simpa using h)]
  rw [List.getElem?_map, List.getElem?_eq_getElem h]
  rfl

lemma waitingTime_eval (env : LoadBalanceEnv) (a : ℕ) (h : a < env.servers.length) :
    waitingTime_get_reward env a =
      some (-1 * serverWait env.wall_time.curr_time env.servers[a]) := by
  unfold waitingTime_get_reward
  rw [observe_getElem env a h]
  rfl

lemma observe_dropLast (env : LoadBalanceEnv) :
    (observe env).dropLast = env.servers.map (serverWait env.wall_time.curr_time) :=
  List.dropLast_concat

lemma observe_getLast? (env : LoadBalanceEnv) :
    (observe env).getLast? = some ((env.incoming_job.map Job.size).getD 0) :=
  List.getLast?_concat _

lemma combined_eq (env : LoadBalanceEnv) :
    ((observe env).dropLast.zip
        (env.servers.map (fun s => (s.queue.map Job.size).sum))).map
      (fun p => p.1 + p.2) =
      env.servers.map (totalLoad env.wall_time.curr_time) := by
  rw [observe_dropLast, List.zip_map', List.map_map]
  rfl

lemma makespan_eval (env : LoadBalanceEnv) (a : ℕ) (h : a < env.servers.length)
    (hterm : env.num_stream_jobs_left = 0) :
    makespan_get_reward env a =
      (pyMax ((env.servers.map (totalLoad env.wall_time.curr_time)).set a
          (totalLoad env.wall_time.curr_time env.servers[a] +
            (env.incoming_job.map Job.size).getD 0 / env.servers[a].service_rate))).map
        (fun m => -1 * (m + env.wall_time.curr_time)) := by
  unfold makespan_get_reward
  rw [if_pos hterm]
  simp only [combined_eq, observe_getLast?, Option.getD_some,
    List.getElem?_eq_getElem h,
    List.getElem?_map, Option.map_some', Option.some_bind]

lemma loadsAfter_eq (env : LoadBalanceEnv) (a : ℕ) (j : Job)
    (h : a < env.servers.length) :
    loadsAfter env a j = (env.servers.map (totalLoad env.wall_time.curr_time)).set a
      (totalLoad env.wall_time.curr_time env.servers[a] +
        j.size / env.servers[a].service_rate) := by
  unfold loadsAfter
  rw [List.getElem?_eq_getElem h]

lemma loadsAfter_length (env : LoadBalanceEnv) (a : ℕ) (j : Job)
    (h : a < env.servers.length) :
    (loadsAfter env a j).length = env.servers.length := by
  rw [loadsAfter_eq env a j h, List.length_set, List.length_map]

lemma makespan_terminal_shape (env : LoadBalanceEnv) (a : ℕ) (j : Job)
    (h : a < env.servers.length) (hterm : env.num_stream_jobs_left = 0)
    (hj : env.incoming_job = some j) :
    ∃ m, pyMax (loadsAfter env a j) = some m ∧
      makespan_get_reward env a = some (-1 * (m + env.wall_time.curr_time)) := by
  have heval := makespan_eval env a h hterm
  rw [hj] at heval
  simp only [Option.map_some', Option.getD_some] at heval
  have hne : loadsAfter env a j ≠ [] := by
    intro hnil
    have := loadsAfter_length env a j h
    rw [hnil] at this
    simp only [List.length_nil] at this
    omega
  obtain ⟨m, hm⟩ := pyMax_isSome hne
  refine ⟨m, hm, ?_⟩
  rw [heval, ← loadsAfter_eq env a j h, hm]
  rfl

lemma makespan_terminal_max_pos (env : LoadBalanceEnv) (a : ℕ) (j : Job)
    (h : a < env.servers.length) (hjs : 0 < j.size)
    (hr : ∀ s ∈ env.servers, 0 < s.service_rate)
    (hq : ∀ s ∈ env.servers, ∀ q ∈ s.queue, 0 < q.size) :
    ∀ m, pyMax (loadsAfter env a j) = some m → 0 < m := by
  intro m hm
  have hsa : env.servers[a] ∈ env.servers := List.getElem_mem h
  have hra := hr _ hsa
  have hqa : ∀ q ∈ env.servers[a].queue, 0 ≤ q.size := fun q hq' => (hq _ hsa q hq').le
  have hv : 0 < totalLoad env.wall_time.curr_time env.servers[a] +
      j.size / env.servers[a].service_rate :=
    add_pos_of_nonneg_of_pos (totalLoad_nonneg _ _ hra.le hqa) (div_pos hjs hra)
  have ha' : a < ((env.servers.map (totalLoad env.wall_time.curr_time)).set a
      (totalLoad env.wall_time.curr_time env.servers[a] +
        j.size / env.servers[a].service_rate)).length := by
    rw [List.length_set, List.length_map]
    exact h
  have hmem : totalLoad env.wall_time.curr_time env.servers[a] +
      j.size / env.servers[a].service_rate ∈ loadsAfter env a j := by
    rw [loadsAfter_eq env a j h]
    have hset := List.getElem_set_self (l := env.servers.map
      (totalLoad env.wall_time.curr_time)) (i := a)
      (a := totalLoad env.wall_time.curr_time env.servers[a] +
        j.size / env.servers[a].service_rate) ha'
    have hmem' := List.getElem_mem ha'
    rw [hset] at hmem'
    exact hmem'
  exact lt_of_lt_of_le hv (le_pyMax hm hmem)

lemma isInfix_append_right {α : Type _} {A B : List α} (C : List α)
    (hAB : List.IsInfix A B) : List.IsInfix A (B ++ C) :=
  hAB.trans (List.infix_append [] B C)

/-! ### Concrete environments used by counterexamples and witnesses -/

/-- A job of size 4, satisfying the positive-size invariant. -/
def jobA : Job := { size := 4, finish_time := 0 }

/-- An idle unit-rate server with an empty queue. -/
def serverA : Server := { service_rate := 1, curr_job := none, queue := [] }

/-- A terminal snapshot: one idle server, clock at 1, the last stream job
(`jobA`) awaiting assignment, no arrivals left. -/
def envTerminal : LoadBalanceEnv :=
  { servers := [serverA], wall_time := { curr_time := 1 },
    incoming_job := some jobA, finished_jobs := [], num_stream_jobs_left := 0 }

/-- `envTerminal` with two finished jobs of sizes 2 and 3. -/
def envTerminalFinished : LoadBalanceEnv :=
  { envTerminal with
    finished_jobs := [{ size := 2, finish_time := 0 }, { size := 3, finish_time := 0 }] }

/-- A terminal snapshot whose projected makespan resolves to exactly zero
(clock at 0, empty loads, a size-0 incoming job — the invariant-violating
state the zero-makespan guard is meant for). -/
def envZeroMakespan : LoadBalanceEnv :=
  { servers := [serverA], wall_time := { curr_time := 0 },
    incoming_job := some { size := 0, finish_time := 0 },
    finished_jobs := [{ size := 5, finish_time := 0 }], num_stream_jobs_left := 0 }

/-- A non-terminal snapshot: one stream arrival still to come. -/
def envNonTerminal : LoadBalanceEnv :=
  { envTerminal with num_stream_jobs_left := 1 }

/-- A snapshot with no incoming job awaiting assignment. -/
def envNoIncoming : LoadBalanceEnv :=
  { envTerminal with incoming_job := none }

/-! ### Claims -/

/-- Claim C1 (counterexample): in the invariant-satisfying terminal state
`envTerminal` (stream exhausted, clock at 1), `MakespanReward.get_reward 0`
returns `-5` — the negative of the projected completion time of all jobs —
and not `-1 * curr_time = -1` as the claim states. -/
theorem makespan_terminal_not_neg_curr_time :
    streamExhausted envTerminal ∧ 0 < jobA.size ∧ 0 < serverA.service_rate ∧
    makespan_get_reward envTerminal 0 = some (-5) ∧
    -1 * envTerminal.wall_time.curr_time = -1 ∧
    some (-5 : ℚ) ≠ some (-1 : ℚ) := by
  refine ⟨rfl, by norm_num [jobA], by norm_num [serverA], ?_,
    by norm_num [envTerminal], by norm_num⟩
  simp [makespan_get_reward, observe, serverWait, envTerminal, serverA, jobA, pyMax]
  norm_num

/-- Claim C1 (amended): at every terminal step (stream exhausted, incoming
job present, valid action), `MakespanReward.get_reward` returns
`-1 * (m + curr_time)` where `m` is the maximum projected server load after
the assignment — the negative of the wall-clock time at which the simulation
is projected to finish, not `-1 * curr_time`. -/
theorem makespan_terminal_projected_finish (env : LoadBalanceEnv) (a : ℕ) (j : Job)
    (h : a < env.servers.length) (hterm : streamExhausted env)
    (hj : env.incoming_job = some j) :
    ∃ m, pyMax (loadsAfter env a j) = some m ∧
      makespan_get_reward env a = some (-1 * (m + env.wall_time.curr_time)) :=
  makespan_terminal_shape env a j h hterm hj

/-- Witness for the amended claim C1, at `envTerminal`. -/
theorem makespan_terminal_projected_finish_witness :
    ∃ m, pyMax (loadsAfter envTerminal 0 jobA) = some m ∧
      makespan_get_reward envTerminal 0 =
        some (-1 * (m + envTerminal.wall_time.curr_time)) :=
  makespan_terminal_projected_finish envTerminal 0 jobA (by decide) rfl rfl

/-- Claim C2 (counterexample): in the terminal state `envTerminalFinished`
(total finished work 5, clock at 1), `NormalizedMakespanReward.get_reward 0`
returns `1` — total work divided by the projected finish time 5 — while
`total_finished_work / curr_time = 5`. -/
theorem normalizedMakespan_not_work_over_curr_time :
    streamExhausted envTerminalFinished ∧
    normalizedMakespan_get_reward envTerminalFinished 0 = some 1 ∧
    totalFinishedWork envTerminalFinished / envTerminalFinished.wall_time.curr_time = 5 ∧
    some (1 : ℚ) ≠ some (5 : ℚ) := by
  refine ⟨rfl, ?_, ?_, by norm_num⟩
  · simp [normalizedMakespan_get_reward, makespan_get_reward, observe, serverWait,
      envTerminalFinished, envTerminal, serverA, jobA, pyMax, totalFinishedWork]
    norm_num
  · simp [totalFinishedWork, envTerminalFinished, envTerminal]
    norm_num

/-- Claim C2 (amended): `NormalizedMakespanReward.get_reward` returns 0
unchanged on every non-terminal call; at a terminal call (with the data-model
invariants) the underlying makespan reward is `-F` for a positive projected
finish time `F`, and the result equals `total_finished_work / F` (positive
whenever any work has finished) — the divisor is the projected finish time,
not `curr_time`. -/
theorem normalizedMakespan_reward_spec :
    (∀ (env : LoadBalanceEnv) (a : ℕ), ¬ streamExhausted env →
      normalizedMakespan_get_reward env a = some 0) ∧
    (∀ (env : LoadBalanceEnv) (a : ℕ) (j : Job), a < env.servers.length →
      streamExhausted env → env.incoming_job = some j → 0 < j.size →
      0 ≤ env.wall_time.curr_time →
      (∀ s ∈ env.servers, 0 < s.service_rate) →
      (∀ s ∈ env.servers, ∀ q ∈ s.queue, 0 < q.size) →
      ∃ F, 0 < F ∧ makespan_get_reward env a = some (-F) ∧
        normalizedMakespan_get_reward env a = some (totalFinishedWork env / F) ∧
        (0 < totalFinishedWork env → 0 < totalFinishedWork env / F)) := by
  constructor
  · intro env a hne
    unfold normalizedMakespan_get_reward makespan_get_reward
    rw [if_neg (show ¬ env.num_stream_jobs_left = 0 from hne)]
    simp
  · intro env a j h hterm hj hjs ht hr hq
    obtain ⟨m, hm, heq⟩ := makespan_terminal_shape env a j h hterm hj
    have hmpos := makespan_terminal_max_pos env a j h hjs hr hq m hm
    have hF : (0 : ℚ) < m + env.wall_time.curr_time := by linarith
    refine ⟨m + env.wall_time.curr_time, hF, ?_, ?_, fun hw => div_pos hw hF⟩
    · rw [heq, neg_one_mul]
    · unfold normalizedMakespan_get_reward
      rw [heq]
      simp only [Option.map_some']
      rw [if_pos (show (-1 * (m + env.wall_time.curr_time) : ℚ) ≠ 0 by
        intro hzero; rw [neg_one_mul, neg_eq_zero] at hzero; linarith)]
      congr 1
      rw [neg_one_mul, neg_one_mul, neg_div_neg_eq]

/-- Witness for the amended claim C2, at `envTerminalFinished`. -/
theorem normalizedMakespan_reward_spec_witness :
    ∃ F, 0 < F ∧ makespan_get_reward envTerminalFinished 0 = some (-F) ∧
      normalizedMakespan_get_reward envTerminalFinished 0 =
        some (totalFinishedWork envTerminalFinished / F) ∧
      (0 < totalFinishedWork envTerminalFinished →
        0 < totalFinishedWork envTerminalFinished / F) :=
  normalizedMakespan_reward_spec.2 envTerminalFinished 0 jobA (by decide) rfl rfl
    (by norm_num [jobA]) (by norm_num [envTerminalFinished, envTerminal])
    (by norm_num [envTerminalFinished, envTerminal, serverA])
    (by simp [envTerminalFinished, envTerminal, serverA])

/-- Claim C3: `MakespanReward.get_reward` returns 0 for every decision while
stream arrivals remain, and (under the data-model invariants) returns a
strictly negative — in particular non-zero — value exactly when the job
arrival stream is exhausted: the terminal branch is keyed on stream
exhaustion, independent of whether server queues are empty. -/
theorem makespan_sparse_terminal_iff_exhausted (env : LoadBalanceEnv) (a : ℕ) (j : Job)
    (h : a < env.servers.length) (hj : env.incoming_job = some j) (hjs : 0 < j.size)
    (ht : 0 ≤ env.wall_time.curr_time)
    (hr : ∀ s ∈ env.servers, 0 < s.service_rate)
    (hq : ∀ s ∈ env.servers, ∀ q ∈ s.queue, 0 < q.size) :
    (¬ streamExhausted env → makespan_get_reward env a = some 0) ∧
    (streamExhausted env → ∃ r, makespan_get_reward env a = some r ∧ r < 0) := by
  constructor
  · intro hne
    unfold makespan_get_reward
    rw [if_neg (show ¬ env.num_stream_jobs_left = 0 from hne)]
  · intro hterm
    obtain ⟨m, hm, heq⟩ := makespan_terminal_shape env a j h hterm hj
    have hmpos := makespan_terminal_max_pos env a j h hjs hr hq m hm
    exact ⟨_, heq, by linarith⟩

/-- Witness for claim C3, at the terminal state `envTerminal`. -/
theorem makespan_sparse_terminal_iff_exhausted_witness :
    ∃ r, makespan_get_reward envTerminal 0 = some r ∧ r < 0 :=
  (makespan_sparse_terminal_iff_exhausted envTerminal 0 jobA (by decide) rfl
    (by norm_num [jobA]) (by norm_num [envTerminal])
    (by norm_num [envTerminal, serverA]) (by simp [envTerminal, serverA])).2 rfl

/-- Claim C4 (counterexample): in the terminal state `envZeroMakespan` the
underlying makespan reward resolves to exactly 0, and
`NormalizedMakespanReward.get_reward` silently returns the ordinary reward 0 —
no labeled computation error is surfaced. -/
theorem normalizedMakespan_zero_makespan_no_error :
    streamExhausted envZeroMakespan ∧
    makespan_get_reward envZeroMakespan 0 = some 0 ∧
    normalizedMakespan_get_reward envZeroMakespan 0 = some 0 := by
  refine ⟨rfl, ?_, ?_⟩
  · simp [makespan_get_reward, observe, serverWait, envZeroMakespan, serverA, pyMax]
  · simp [normalizedMakespan_get_reward, makespan_get_reward, observe, serverWait,
      envZeroMakespan, serverA, pyMax, totalFinishedWork]

/-- Claim C4 (amended): whenever the underlying makespan reward resolves to
exactly zero, `NormalizedMakespanReward.get_reward` passes that zero through
unchanged: the division is skipped, but no error of any kind is raised. -/
theorem normalizedMakespan_zero_passthrough (env : LoadBalanceEnv) (a : ℕ)
    (hz : makespan_get_reward env a = some 0) :
    normalizedMakespan_get_reward env a = some 0 := by
  unfold normalizedMakespan_get_reward
  rw [hz]
  simp

/-- Witness for the amended claim C4, at `envZeroMakespan`. -/
theorem normalizedMakespan_zero_passthrough_witness :
    normalizedMakespan_get_reward envZeroMakespan 0 = some 0 :=
  normalizedMakespan_zero_passthrough envZeroMakespan 0
    (by simp [makespan_get_reward, observe, serverWait, envZeroMakespan, serverA, pyMax])

/-- Claim C5: with an incoming job present and a valid action,
`CompletionTimeReward.get_reward` equals `WaitingTimeReward.get_reward` minus
`incoming_job.size / servers[action].service_rate`; with positive job size
and service rate it is therefore at most the waiting-time reward. -/
theorem completionTime_eq_waitingTime_sub_service (env : LoadBalanceEnv) (a : ℕ)
    (j : Job) (h : a < env.servers.length) (hj : env.incoming_job = some j)
    (hjs : 0 < j.size) (hr : 0 < env.servers[a].service_rate) :
    ∃ w c, waitingTime_get_reward env a = some w ∧
      completionTime_get_reward env a = some c ∧
      c = w - j.size / env.servers[a].service_rate ∧ c ≤ w := by
  have hw := waitingTime_eval env a h
  have hc : completionTime_get_reward env a =
      some (-1 * (-(-1 * serverWait env.wall_time.curr_time env.servers[a]) +
        j.size / env.servers[a].service_rate)) := by
    unfold completionTime_get_reward
    rw [hw, hj, List.getElem?_eq_getElem h]
    rfl
  have hd : 0 ≤ j.size / env.servers[a].service_rate := (div_pos hjs hr).le
  refine ⟨-1 * serverWait env.wall_time.curr_time env.servers[a],
    -1 * (-(-1 * serverWait env.wall_time.curr_time env.servers[a]) +
      j.size / env.servers[a].service_rate), hw, hc, by ring, by linarith⟩

/-- Witness for claim C5, at `envTerminal` with the incoming job `jobA`. -/
theorem completionTime_eq_waitingTime_sub_service_witness :
    ∃ w c, waitingTime_get_reward envTerminal 0 = some w ∧
      completionTime_get_reward envTerminal 0 = some c ∧
      c = w - jobA.size / serverA.service_rate ∧ c ≤ w :=
  completionTime_eq_waitingTime_sub_service envTerminal 0 jobA (by decide) rfl
    (by norm_num [jobA]) (by norm_num [envTerminal, serverA])

/-- Claim C6: with the data-model invariants (positive service rate, positive
queued-job sizes) and a valid action, `WaitingTimeReward.get_reward` is the
negation of the chosen server's waiting-time estimate, hence at most 0, and
it is 0 exactly when that server is idle with an empty queue. -/
theorem waitingTime_nonpos_zero_iff_idle (env : LoadBalanceEnv) (a : ℕ)
    (h : a < env.servers.length) (hr : 0 < env.servers[a].service_rate)
    (hq : ∀ j ∈ env.servers[a].queue, 0 < j.size) :
    ∃ r, waitingTime_get_reward env a = some r ∧
      r = -1 * serverWait env.wall_time.curr_time env.servers[a] ∧ r ≤ 0 ∧
      (r = 0 ↔ (serverIdle env.wall_time.curr_time env.servers[a] = true ∧
        env.servers[a].queue = [])) := by
  have hw := waitingTime_eval env a h
  have hnn := serverWait_nonneg env.wall_time.curr_time env.servers[a] hr.le
    (fun j hj => (hq j hj).le)
  have hzero := serverWait_eq_zero_iff env.wall_time.curr_time env.servers[a] hr hq
  refine ⟨-1 * serverWait env.wall_time.curr_time env.servers[a], hw, rfl,
    by linarith, ?_⟩
  constructor
  · intro h0
    apply hzero.mp
    linarith
  · intro hi
    rw [hzero.mpr hi]
    ring

/-- Witness for claim C6, at `envTerminal` whose server 0 is idle with an
empty queue: the reward is 0 and the characterization holds. -/
theorem waitingTime_nonpos_zero_iff_idle_witness :
    ∃ r, waitingTime_get_reward envTerminal 0 = some r ∧
      r = -1 * serverWait envTerminal.wall_time.curr_time serverA ∧ r ≤ 0 ∧
      (r = 0 ↔ (serverIdle envTerminal.wall_time.curr_time serverA = true ∧
        serverA.queue = [])) :=
  waitingTime_nonpos_zero_iff_idle envTerminal 0 (by decide)
    (by norm_num [envTerminal, serverA]) (by simp [envTerminal, serverA])

/-- Claim C7: `RewardCalculator.__init__` rejects every string outside
`OBJECTIVE_NAMES` with an error whose message contains each valid name, never
constructs a calculator with the policy slot unset, and binds the documented
policy for each valid name — with `"makespan"` bound to the normalized
variant (the plain makespan policy has no name that selects it). -/
theorem rewardCalculator_init_spec :
    (∀ s : String, s ∉ OBJECTIVE_NAMES →
      ∃ msg, RewardCalculator_init s = Except.error msg ∧
        ∀ name ∈ OBJECTIVE_NAMES, List.IsInfix name.toList msg.toList) ∧
    (∀ s : String, RewardCalculator_init s ≠ Except.ok none) ∧
    RewardCalculator_init "makespan" = Except.ok (some BoundPolicy.normalizedMakespan) ∧
    RewardCalculator_init "waitingTime" = Except.ok (some BoundPolicy.waitingTime) ∧
    RewardCalculator_init "completionTime" = Except.ok (some BoundPolicy.completionTime) ∧
    (∀ (env : LoadBalanceEnv) (act : ℕ),
      RewardCalculator_get_reward BoundPolicy.normalizedMakespan env act =
        normalizedMakespan_get_reward env act ∧
      RewardCalculator_get_reward BoundPolicy.waitingTime env act =
        waitingTime_get_reward env act ∧
      RewardCalculator_get_reward BoundPolicy.completionTime env act =
        completionTime_get_reward env act) := by
  refine ⟨?_, ?_, rfl, rfl, rfl, fun env act => ⟨rfl, rfl, rfl⟩⟩
  · intro s hs
    refine ⟨"Expect objective name to be one of " ++ toString OBJECTIVE_NAMES ++
      "but got: " ++ s, ?_, ?_⟩
    · unfold RewardCalculator_init
      rw [if_pos hs]
    · intro name hname
      have hsplit : ("Expect objective name to be one of " ++ toString OBJECTIVE_NAMES ++
          "but got: " ++ s).toList =
          ("Expect objective name to be one of " ++ toString OBJECTIVE_NAMES ++
            "but got: ").toList ++ s.toList := by
        simp [String.toList]
      rw [hsplit]
      apply isInfix_append_right
      simp only [OBJECTIVE_NAMES, List.mem_cons, List.not_mem_nil, or_false] at hname
      rcases hname with rfl | rfl | rfl
      · decide
      · decide
      · decide
  · intro s
    by_cases hs : s ∈ OBJECTIVE_NAMES
    · have hcases : s = "makespan" ∨ s = "waitingTime" ∨ s = "completionTime" := by
        simpa [OBJECTIVE_NAMES] using hs
      rcases hcases with rfl | rfl | rfl
      · intro hc
        rw [show RewardCalculator_init "makespan" =
          Except.ok (some BoundPolicy.normalizedMakespan) from rfl] at hc
        simp at hc
      · intro hc
        rw [show RewardCalculator_init "waitingTime" =
          Except.ok (some BoundPolicy.waitingTime) from rfl] at hc
        simp at hc
      · intro hc
        rw [show RewardCalculator_init "completionTime" =
          Except.ok (some BoundPolicy.completionTime) from rfl] at hc
        simp at hc
    · intro hc
      unfold RewardCalculator_init at hc
      rw [if_pos hs] at hc
      exact Except.noConfusion hc

/-- Witness for claim C7: the invalid name "notAnObjective" is rejected with
a message containing every valid name. -/
theorem rewardCalculator_init_spec_witness :
    ∃ msg, RewardCalculator_init "notAnObjective" = Except.error msg ∧
      ∀ name ∈ OBJECTIVE_NAMES, List.IsInfix name.toList msg.toList :=
  rewardCalculator_init_spec.1 "notAnObjective" (by decide)

/-- Claim C8: a facade call mutates no state — `RewardCalculator_step`
returns the bound policy unchanged — and a second call on the same snapshot
and action returns the identical value: the reward is a deterministic
function of the snapshot and the action. -/
theorem rewardCalculator_get_reward_idempotent (p : BoundPolicy)
    (env : LoadBalanceEnv) (act : ℕ) :
    (RewardCalculator_step p env act).2 = p ∧
    (RewardCalculator_step p env act).1 =
      (RewardCalculator_step (RewardCalculator_step p env act).2 env act).1 :=
  ⟨rfl, rfl⟩

/-- Claim C9: `CompletionTimeReward.get_reward` requires an incoming job:
whenever `incoming_job` is unset the call fails (modelled as `none`, the
attribute access on a missing job) instead of returning a reward. -/
theorem completionTime_requires_incoming_job (env : LoadBalanceEnv) (a : ℕ)
    (hnone : env.incoming_job = none) :
    completionTime_get_reward env a = none := by
  unfold completionTime_get_reward
  rw [hnone]
  cases waitingTime_get_reward env a <;> rfl

/-- Witness for claim C9, at `envNoIncoming`. -/
theorem completionTime_requires_incoming_job_witness :
    completionTime_get_reward envNoIncoming 0 = none :=
  completionTime_requires_incoming_job envNoIncoming 0 rfl

/-- Claim C10: on every non-terminal call both makespan-family rewards are 0
for any action value — including out-of-range ones — with no out-of-bounds
failure: the action argument and the server list are never read. -/
theorem makespan_nonterminal_ignores_action (env : LoadBalanceEnv) (a1 a2 : ℕ)
    (hne : ¬ streamExhausted env) :
    makespan_get_reward env a1 = some 0 ∧ makespan_get_reward env a2 = some 0 ∧
    normalizedMakespan_get_reward env a1 = some 0 ∧
    normalizedMakespan_get_reward env a2 = some 0 := by
  have k : ∀ a, makespan_get_reward env a = some 0 := by
    intro a
    unfold makespan_get_reward
    rw [if_neg (show ¬ env.num_stream_jobs_left = 0 from hne)]
  have k2 : ∀ a, normalizedMakespan_get_reward env a = some 0 := by
    intro a
    unfold normalizedMakespan_get_reward
    rw [k a]
    simp
  exact ⟨k a1, k a2, k2 a1, k2 a2⟩

/-- Witness for claim C10, at `envNonTerminal` with the in-range action 0 and
the far out-of-range action 1000 (the environment has a single server). -/
theorem makespan_nonterminal_ignores_action_witness :
    makespan_get_reward envNonTerminal 0 = some 0 ∧
    makespan_get_reward envNonTerminal 1000 = some 0 ∧
    normalizedMakespan_get_reward envNonTerminal 0 = some 0 ∧
    normalizedMakespan_get_reward envNonTerminal 1000 = some 0 :=
  makespan_nonterminal_ignores_action envNonTerminal 0 1000 (by decide)

end Park.LoadBalance
